import Mathlib

/-!
Shallow embedding of the sink lifecycle coordinator of target-snowflake:
the function `overriden_get_sink` in `src/target_snowflake/target.py`
(lines 23 to 83), installed over `SQLTarget.get_sink`, together with the
singer_sdk pool state it manipulates.  The theorems below settle the
claims about sink resolution, the sink pool invariant and the schema
change path.

A central fact about the source drives several results: at line 62 the
body evaluates `os.enviorn.get("GREEDY_SINK", "false")`, and the module
never imports `os` (its imports are `logging.config`, `click`,
`singer_sdk` pieces and the local `target_snowflake` modules), so the
name `os` is unbound and the line raises NameError.  The annotations at
lines 29 and 30 mention other unbound names (`t`, `Sink`) but those are
lazy under `from __future__ import annotations`; line 62 is executed
code.  Hence every call that reaches the greedy-sink decision raises
before any state mutation, and lines 64 to 83, the greedy check, the
schema change check and the retirement at line 80, are dead code.
-/

/-- A record shape: field names with their type names.  The coordinator
only ever compares schemas for equality (`existing_sink.schema != schema`
at line 66), so any type with decidable equality is a faithful carrier. -/
abbrev Schema := List (String × String)

/-- A data record.  `overriden_get_sink` discards its `record` argument
(line 53, `_ = record`). -/
abbrev Recd := List (String × String)

/-- The process environment as `os.environ` would expose it.  In the
source the name `os` is unbound, so the environment is never actually
read; the parameter is kept so that independence from it can be stated. -/
abbrev Env := List (String × String)

/-- A sink as the coordinator sees it: singer_sdk sinks carry the stream
name, the schema and key properties they were created for, and a buffer
of pending records.  `sid` models Python object identity: each sink the
coordinator builds is a distinct object. -/
structure Sink where
  streamName : String
  schema : Schema
  key_properties : Option (List String)
  buffer : List Recd
  sid : Nat
deriving DecidableEq, Repr

/-- The sink pool of a `SQLTarget`: `_sinks_active` is a dict from stream
name to sink, modelled as an association list with first-match lookup and
dict assignment semantics, and `_sinks_to_clear` is the list of retired
sinks awaiting `drain_all`.  `nextSid` supplies fresh identities.
`created` is a history variable recording every sink the coordinator has
built; it is not part of the Python state and no operation reads it, it
only lets the pool invariant speak about \xabevery sink created\xbb. -/
structure TargetState where
  sinks_active : List (String × Sink)
  sinks_to_clear : List Sink
  nextSid : Nat
  created : List Sink
deriving DecidableEq, Repr

/-- The pool before any call: no active sinks, nothing to clear. -/
def emptyState : TargetState := ⟨[], [], 0, []⟩

/-- `self._sinks_active.get(stream_name, None)` on the association list. -/
def lookupSink : List (String × Sink) → String → Option Sink
  | [], _ => none
  | (k, v) :: rest, s => if k = s then some v else lookupSink rest s

/-- Dict assignment `self._sinks_active[k] = v`: replace the binding in
place when the key is present, append at the end when it is absent. -/
def insertSink (m : List (String × Sink)) (k : String) (v : Sink) :
    List (String × Sink) :=
  if (lookupSink m k).isSome then
    m.map fun p => if p.1 = k then (k, v) else p
  else m ++ [(k, v)]

/-- What a `get_sink` call can raise.  `recordsWithoutSchema` models the
singer_sdk RecordsWithoutSchemaException raised by `_assert_sink_exists`
(line 55; the docstring at lines 41 and 42 documents it).  `nameError`
models the NameError raised at line 62 because the name `os` is unbound
in `target.py`; the attribute is also misspelled (`enviorn`), so even
with the import the line would raise. -/
inductive GetSinkError where
  | recordsWithoutSchema (stream_name : String)
  | nameError
deriving DecidableEq, Repr

/-- singer_sdk `Target.add_sqlsink` (dependency code called at lines 60
and 81; its documented behaviour is restated by the docstring at lines
33 to 35): build a new sink for the stream with the given schema and key
properties, register it as the active sink for the stream, and return
it.  A freshly built sink has an empty buffer. -/
def add_sqlsink (st : TargetState) (stream_name : String) (schema : Schema)
    (key_properties : Option (List String)) : Sink × TargetState :=
  let sink : Sink := ⟨stream_name, schema, key_properties, [], st.nextSid⟩
  (sink,
    { st with
      sinks_active := insertSink st.sinks_active stream_name sink
      nextSid := st.nextSid + 1
      created := st.created ++ [sink] })

/-- `overriden_get_sink` (target.py lines 23 to 83).  Control flow of the
source body:
  line 53: `_ = record`, the record is discarded;
  lines 54 to 56: `schema is None`: `_assert_sink_exists` raises
    RecordsWithoutSchemaException when no active sink exists, else the
    active sink is returned, state untouched;
  lines 58 to 60: schema given and no active sink (`not existing_sink`
    is a falsiness test, equivalent to an `is None` test because sinks
    define neither `__bool__` nor `__len__`): `add_sqlsink`;
  line 62: schema given and an active sink exists: evaluating
    `os.enviorn.get(...)` raises NameError since `os` is unbound, before
    any state mutation; lines 64 to 83 are unreachable. -/
def get_sink (env : Env) (st : TargetState) (stream_name : String)
    (record : Option Recd) (schema : Option Schema)
    (key_properties : Option (List String)) :
    Except GetSinkError (Sink × TargetState) :=
  match schema with
  | none =>
    match lookupSink st.sinks_active stream_name with
    | none => .error (.recordsWithoutSchema stream_name)
    | some existing_sink => .ok (existing_sink, st)
  | some sch =>
    match lookupSink st.sinks_active stream_name with
    | none => .ok (add_sqlsink st stream_name sch key_properties)
    | some _existing_sink => .error .nameError

/-- The pool state after a call: a raise leaves the state as it stood at
the raise point, and both raises in `get_sink` happen before any
mutation. -/
def get_sinkStep (env : Env) (st : TargetState) (stream_name : String)
    (record : Option Recd) (schema : Option Schema)
    (key_properties : Option (List String)) : TargetState :=
  match get_sink env st stream_name record schema key_properties with
  | .error _ => st
  | .ok (_, st') => st'

/-- States reachable from the empty pool by any sequence of `get_sink`
calls with arbitrary arguments and environments. -/
inductive Reachable : TargetState → Prop where
  | empty : Reachable emptyState
  | step (env : Env) (stream_name : String) (record : Option Recd)
      (schema : Option Schema) (key_properties : Option (List String))
      {st : TargetState} : Reachable st →
      Reachable (get_sinkStep env st stream_name record schema key_properties)

/-- The stream names holding an active sink. -/
def activeStreams (st : TargetState) : List String :=
  st.sinks_active.map fun p => p.1

/-- The sinks currently registered as active. -/
def activeSinks (st : TargetState) : List Sink :=
  st.sinks_active.map fun p => p.2

/-- The pool invariant maintained by `get_sink`: stream keys are not
duplicated, nothing has ever been retired (the retirement path is dead
code), and every sink the coordinator built is the registered active
sink of its stream. -/
def PoolInv (st : TargetState) : Prop :=
  (activeStreams st).Nodup ∧ st.sinks_to_clear = [] ∧
    ∀ s ∈ st.created, lookupSink st.sinks_active s.streamName = some s

theorem lookupSink_eq_none {m : List (String × Sink)} {k : String} :
    lookupSink m k = none ↔ k ∉ activeStreams ⟨m, [], 0, []⟩ := by
  induction m with
  | nil => simp [lookupSink, activeStreams]
  | cons p rest ih =>
    obtain ⟨k₀, v₀⟩ := p
    by_cases h : k₀ = k <;>
      simp [lookupSink, h, activeStreams] at ih ⊢ <;> simp [ih] <;> tauto

theorem lookupSink_append (m m' : List (String × Sink)) (k : String) :
    lookupSink (m ++ m') k =
      match lookupSink m k with
      | some v => some v
      | none => lookupSink m' k := by
  induction m with
  | nil => rfl
  | cons p rest ih =>
    obtain ⟨k₀, v₀⟩ := p
    by_cases h : k₀ = k <;> simp [lookupSink, h, ih]

theorem lookupSink_mem_snd {m : List (String × Sink)} {k : String} {v : Sink}
    (h : lookupSink m k = some v) : v ∈ activeSinks ⟨m, [], 0, []⟩ := by
  induction m with
  | nil => simp [lookupSink] at h
  | cons p rest ih =>
    obtain ⟨k₀, v₀⟩ := p
    by_cases hk : k₀ = k
    · simp [lookupSink, hk] at h
      simp [activeSinks, h]
    · simp [lookupSink, hk] at h
      simpa [activeSinks] using Or.inr (by simpa [activeSinks] using ih h)

theorem insertSink_of_none {m : List (String × Sink)} {k : String} {v : Sink}
    (h : lookupSink m k = none) : insertSink m k v = m ++ [(k, v)] := by
  simp [insertSink, h]

/-- One `get_sink` call preserves the pool invariant. -/
theorem poolInv_step (env : Env) (st : TargetState) (stream_name : String)
    (record : Option Recd) (schema : Option Schema)
    (key_properties : Option (List String)) (h : PoolInv st) :
    PoolInv (get_sinkStep env st stream_name record schema key_properties) := by
  obtain ⟨hnod, hclear, hcreated⟩ := h
  unfold get_sinkStep get_sink
  cases schema with
  | none =>
    cases hl : lookupSink st.sinks_active stream_name <;>
      exact ⟨hnod, hclear, hcreated⟩
  | some sch =>
    cases hl : lookupSink st.sinks_active stream_name with
    | some s => exact ⟨hnod, hclear, hcreated⟩
    | none =>
      simp only [add_sqlsink]
      have hins := insertSink_of_none (v := ⟨stream_name, sch, key_properties, [], st.nextSid⟩) hl
      refine ⟨?_, hclear, ?_⟩
      · have hmem : stream_name ∉ activeStreams st := by
          have := (lookupSink_eq_none (m := st.sinks_active) (k := stream_name)).mp hl
          simpa [activeStreams] using this
        simp only [activeStreams, hins, List.map_append]
        refine List.Nodup.append (by simpa [activeStreams] using hnod) (by simp) ?_
        intro a ha hb
        simp at hb
        subst hb
        exact hmem (by simpa [activeStreams] using ha)
      · intro s hs
        simp only [hins, lookupSink_append]
        rcases List.mem_append.mp hs with hs' | hs'
        · have := hcreated s hs'
          simp [this]
        · simp at hs'
          subst hs'
          simp [hl, lookupSink]

/-- Every reachable pool state satisfies the invariant. -/
theorem poolInv_reachable {st : TargetState} (h : Reachable st) : PoolInv st := by
  induction h with
  | empty => exact ⟨by simp [activeStreams, emptyState], rfl, by simp [emptyState]⟩
  | step env sn r sc kp _ ih => exact poolInv_step env _ sn r sc kp ih

/- Concrete fixtures used by witnesses and by the evaluations of the dead
retirement path. -/

/-- Schema A of the orders scenario: keys `[id]`. -/
def schemaA : Schema := [("id", "integer"), ("amount", "number")]

/-- Schema B of the orders scenario: a `region` field and keys
`[id, region]`. -/
def schemaB : Schema :=
  [("id", "integer"), ("amount", "number"), ("region", "string")]

/-- Three records buffered under schema A before the schema change. -/
def recsA : List Recd := [[("id", "1")], [("id", "2")], [("id", "3")]]

/-- The active sink for stream `orders` under schema A, holding the three
pre-change records. -/
def sinkOrdersA : Sink := ⟨"orders", schemaA, some ["id"], recsA, 0⟩

/-- A pool in which `orders` has the schema A sink active and nothing is
retiring. -/
def stOrders : TargetState := ⟨[("orders", sinkOrdersA)], [], 1, [sinkOrdersA]⟩

/-- An environment with the greedy-sink toggle switched on. -/
def envGreedy : Env := [("GREEDY_SINK", "true")]

/-- C2: in every pool state reachable by `get_sink` calls, the active
mapping holds at most one sink per stream name, and every sink the
coordinator created is in exactly one of the active mapping and the
retiring collection (in fact always the active one: the retirement path
at line 80 is unreachable, so `_sinks_to_clear` stays empty). -/
theorem c2_pool_invariant {st : TargetState} (h : Reachable st) :
    (activeStreams st).Nodup ∧
      ∀ s ∈ st.created,
        (s ∈ activeSinks st ∧ s ∉ st.sinks_to_clear) ∨
          (s ∉ activeSinks st ∧ s ∈ st.sinks_to_clear) := by
  obtain ⟨hnod, hclear, hcreated⟩ := poolInv_reachable h
  refine ⟨hnod, fun s hs => Or.inl ⟨?_, by simp [hclear]⟩⟩
  have hl := hcreated s hs
  have := lookupSink_mem_snd (m := st.sinks_active) hl
  simpa [activeSinks] using this

/-- Witness for C2: the invariant instantiated at the concrete reachable
state obtained by one schema A call for `orders` on the empty pool. -/
theorem c2_pool_invariant_witness :
    Reachable (get_sinkStep [] emptyState "orders" none (some schemaA)
        (some ["id"])) ∧
      ((activeStreams (get_sinkStep [] emptyState "orders" none (some schemaA)
          (some ["id"]))).Nodup ∧
        ∀ s ∈ (get_sinkStep [] emptyState "orders" none (some schemaA)
            (some ["id"])).created,
          (s ∈ activeSinks (get_sinkStep [] emptyState "orders" none
                (some schemaA) (some ["id"])) ∧
              s ∉ (get_sinkStep [] emptyState "orders" none (some schemaA)
                (some ["id"])).sinks_to_clear) ∨
            (s ∉ activeSinks (get_sinkStep [] emptyState "orders" none
                (some schemaA) (some ["id"])) ∧
              s ∈ (get_sinkStep [] emptyState "orders" none (some schemaA)
                (some ["id"])).sinks_to_clear)) :=
  ⟨Reachable.step [] "orders" none (some schemaA) (some ["id"]) Reachable.empty,
    c2_pool_invariant
      (Reachable.step [] "orders" none (some schemaA) (some ["id"])
        Reachable.empty)⟩

/-- C3: a call without a schema returns the active sink untouched when
one exists, and fails with RecordsWithoutSchemaException when none does;
the pool is unchanged either way (the error branch raises before any
mutation, so `get_sinkStep` also returns the input state). -/
theorem c3_no_schema (env : Env) (st : TargetState) (stream_name : String)
    (record : Option Recd) (key_properties : Option (List String)) :
    (∀ s, lookupSink st.sinks_active stream_name = some s →
        get_sink env st stream_name record none key_properties = .ok (s, st)) ∧
      (lookupSink st.sinks_active stream_name = none →
        get_sink env st stream_name record none key_properties =
          .error (.recordsWithoutSchema stream_name)) ∧
      get_sinkStep env st stream_name record none key_properties = st := by
  refine ⟨fun s hs => by simp [get_sink, hs], fun hn => by simp [get_sink, hn], ?_⟩
  unfold get_sinkStep get_sink
  cases hl : lookupSink st.sinks_active stream_name <;> rfl

/-- Witness for C3: both branches at concrete pools, by applying
`c3_no_schema` at the orders pool (sink present) and the empty pool
(sink absent). -/
theorem c3_no_schema_witness :
    (lookupSink stOrders.sinks_active "orders" = some sinkOrdersA ∧
        get_sink [] stOrders "orders" none none none = .ok (sinkOrdersA, stOrders)) ∧
      (lookupSink emptyState.sinks_active "orders" = none ∧
        get_sink [] emptyState "orders" none none none =
          .error (.recordsWithoutSchema "orders")) :=
  ⟨⟨rfl, (c3_no_schema [] stOrders "orders" none none).1 sinkOrdersA rfl⟩,
    ⟨rfl, (c3_no_schema [] emptyState "orders" none none).2.1 rfl⟩⟩

/-- C4: with a schema and no active sink for the stream, a new sink built
from that schema and key set is registered as the active sink for the
stream and returned, and the retiring collection is untouched. -/
theorem c4_new_stream (env : Env) (st : TargetState) (stream_name : String)
    (record : Option Recd) (sch : Schema) (key_properties : Option (List String))
    (h : lookupSink st.sinks_active stream_name = none) :
    ∃ st',
      get_sink env st stream_name record (some sch) key_properties =
          .ok (⟨stream_name, sch, key_properties, [], st.nextSid⟩, st') ∧
        lookupSink st'.sinks_active stream_name =
          some ⟨stream_name, sch, key_properties, [], st.nextSid⟩ ∧
        st'.sinks_to_clear = st.sinks_to_clear := by
  refine ⟨(add_sqlsink st stream_name sch key_properties).2,
    by simp [get_sink, h, add_sqlsink], ?_, rfl⟩
  simp only [add_sqlsink, insertSink_of_none h, lookupSink_append, h]
  simp [lookupSink]

/-- Witness for C4: the schema A call for `orders` on the empty pool,
applying `c4_new_stream` there. -/
theorem c4_new_stream_witness :
    lookupSink emptyState.sinks_active "orders" = none ∧
      ∃ st',
        get_sink [] emptyState "orders" none (some schemaA) (some ["id"]) =
            .ok (⟨"orders", schemaA, some ["id"], [], emptyState.nextSid⟩, st') ∧
          lookupSink st'.sinks_active "orders" =
            some ⟨"orders", schemaA, some ["id"], [], emptyState.nextSid⟩ ∧
          st'.sinks_to_clear = emptyState.sinks_to_clear :=
  ⟨rfl, c4_new_stream [] emptyState "orders" none schemaA (some ["id"]) rfl⟩

/-- C9: whenever a schema is given and an active sink already exists for
the stream, the call raises NameError (the name `os` at line 62 is
unbound in the module) before returning any sink or mutating the pool,
for every environment, every incoming schema and key set. -/
theorem c9_name_error (env : Env) (st : TargetState) (stream_name : String)
    (record : Option Recd) (sch : Schema) (key_properties : Option (List String))
    (s : Sink) (h : lookupSink st.sinks_active stream_name = some s) :
    get_sink env st stream_name record (some sch) key_properties =
        .error .nameError ∧
      get_sinkStep env st stream_name record (some sch) key_properties = st := by
  refine ⟨by simp [get_sink, h], ?_⟩
  unfold get_sinkStep get_sink
  simp [h]

/-- Witness for C9: the orders pool holds an active sink, and the schema B
call on it raises NameError leaving the pool unchanged, by applying
`c9_name_error` there. -/
theorem c9_name_error_witness :
    lookupSink stOrders.sinks_active "orders" = some sinkOrdersA ∧
      get_sink envGreedy stOrders "orders" none (some schemaB)
          (some ["id", "region"]) = .error .nameError ∧
        get_sinkStep envGreedy stOrders "orders" none (some schemaB)
          (some ["id", "region"]) = stOrders :=
  ⟨rfl, c9_name_error envGreedy stOrders "orders" none schemaB
    (some ["id", "region"]) sinkOrdersA rfl⟩

/-- C10: sink resolution never inspects the record: two calls identical
except for the record argument return the same result, and leave the same
pool state. -/
theorem c10_record_independent (env : Env) (st : TargetState)
    (stream_name : String) (r₁ r₂ : Option Recd) (schema : Option Schema)
    (key_properties : Option (List String)) :
    get_sink env st stream_name r₁ schema key_properties =
        get_sink env st stream_name r₂ schema key_properties ∧
      get_sinkStep env st stream_name r₁ schema key_properties =
        get_sinkStep env st stream_name r₂ schema key_properties :=
  ⟨rfl, rfl⟩

/-- C1 (evaluation of the code at the failing input): with the schema A
sink active for `orders` holding three buffered records, the schema B
call that the claim says should retire it and register a fresh sink
instead raises NameError: the old sink is still active with its buffer,
nothing was appended to `_sinks_to_clear`, and no new sink exists. -/
theorem c1_schema_change_raises :
    get_sink [] stOrders "orders" none (some schemaB) (some ["id", "region"]) =
        .error .nameError ∧
      get_sinkStep [] stOrders "orders" none (some schemaB)
          (some ["id", "region"]) = stOrders ∧
        stOrders.sinks_to_clear = [] ∧ sinkOrdersA.buffer = recsA :=
  ⟨rfl, rfl, rfl, rfl⟩

/-- C5 (evaluation of the code at the failing input): with GREEDY_SINK
set to true in the environment and an active sink whose schema differs
from the incoming one, the call the claim says should return the
existing sink unconditionally raises NameError instead: the greedy
escape hatch is unreachable. -/
theorem c5_greedy_raises :
    get_sink envGreedy stOrders "orders" (some [("id", "9")]) (some schemaB)
        (some ["id", "region"]) = .error .nameError ∧
      get_sinkStep envGreedy stOrders "orders" (some [("id", "9")])
        (some schemaB) (some ["id", "region"]) = stOrders :=
  ⟨rfl, rfl⟩

/-- C6 (evaluation of the code at the failing input): with the incoming
schema and key set equal to the active sink's, so the claimed change
condition is false, the call the claim says should return the existing
sink unchanged raises NameError instead: the condition at lines 65 to 68
is never computed. -/
theorem c6_unchanged_raises :
    sinkOrdersA.schema = schemaA ∧ sinkOrdersA.key_properties = some ["id"] ∧
      get_sink [] stOrders "orders" none (some schemaA) (some ["id"]) =
          .error .nameError ∧
        get_sinkStep [] stOrders "orders" none (some schemaA) (some ["id"]) =
          stOrders :=
  ⟨rfl, rfl, rfl, rfl⟩

/-- C7 (evaluation of the code at the failing input): running the
two-call sequence the claim relies on, schema A then schema B for
`orders` starting from the empty pool, retires nothing: the second call
raises NameError and `_sinks_to_clear` stays empty, so the retirement
order the claim describes never materialises. -/
theorem c7_no_retirement :
    get_sink [] (get_sinkStep [] emptyState "orders" none (some schemaA)
          (some ["id"])) "orders" none (some schemaB) (some ["id", "region"]) =
        .error .nameError ∧
      (get_sinkStep [] (get_sinkStep [] emptyState "orders" none (some schemaA)
            (some ["id"])) "orders" none (some schemaB)
          (some ["id", "region"])).sinks_to_clear = [] :=
  ⟨rfl, rfl⟩

/-- C8 (evaluation of the code at the failing input): on the path the
claim is about, the result does not depend on the environment at all,
because the NameError at line 62 fires before `GREEDY_SINK` could be
consulted: for every environment the call returns the same NameError and
leaves the pool unchanged. -/
theorem c8_env_never_read (env : Env) :
    get_sink env stOrders "orders" none (some schemaB) (some ["id", "region"]) =
        .error .nameError ∧
      get_sinkStep env stOrders "orders" none (some schemaB)
        (some ["id", "region"]) = stOrders :=
  ⟨rfl, rfl⟩
